import Mathlib

/-!
# The lucky-star factory and the frame callback of `src/main.js`

A shallow embedding of `makeLuckyStar` (lines 48-112), of the top-level
statements that place the star (lines 114-116) and of `animate`
(lines 150-174).

JavaScript numbers are modelled by an arbitrary field `α` together with an
interpretation `JSMath α` of the members of the `Math` object the script
calls.  Structural statements (number of path commands, option defaults,
the in-place loop, frame effects) are proved for every such interpretation.
Statements about distances, angles and magnitudes are proved for the
real-number interpretation `realMath`, i.e. for exact arithmetic: rounding
of IEEE doubles is not modelled.

The rendering library is not part of the repository; the two library entry
points whose results the factory consumes (`new THREE.ExtrudeGeometry` and
`computeVertexNormals`) are parameters of the model (`Three α`).
-/

namespace LuckyStar

/-! ## Numbers and the `Math` object -/

/-- The members of the JavaScript `Math` object used by `main.js`:
`Math.PI`, `Math.cos`, `Math.sin`, `Math.sqrt`, `Math.exp`. -/
structure JSMath (α : Type) where
  PI : α
  cos : α → α
  sin : α → α
  sqrt : α → α
  exp : α → α

/-- Exact real arithmetic as the meaning of the `Math` object. -/
noncomputable def realMath : JSMath ℝ where
  PI := Real.pi
  cos := Real.cos
  sin := Real.sin
  sqrt := Real.sqrt
  exp := Real.exp

/-! ## Data -/

/-- A triple of numbers (`THREE.Vector3`, or one item of a buffer attribute
of item size 3). -/
structure Vec3 (α : Type) where
  x : α
  y : α
  z : α

/-- The calls made on a `THREE.Shape`, in the order they are made. -/
inductive PathCmd (α : Type) where
  | moveTo (x y : α)
  | lineTo (x y : α)
  | closePath

/-- A `THREE.Shape` as the sequence of path calls it has received. -/
abbrev Shape (α : Type) := List (PathCmd α)

/-- The point a path call carries, if any. -/
def PathCmd.point? {α : Type} : PathCmd α → Option (α × α)
  | .moveTo x y => some (x, y)
  | .lineTo x y => some (x, y)
  | .closePath => none

/-- The vertices of an outline: the points of its `moveTo` and `lineTo`
calls, in order. -/
def Shape.vertices {α : Type} (s : Shape α) : List (α × α) :=
  s.filterMap PathCmd.point?

/-- The options object passed to `new THREE.ExtrudeGeometry` (lines 71-78). -/
structure ExtrudeSettings (α : Type) where
  depth : α
  bevelEnabled : Bool
  bevelSize : α
  bevelThickness : α
  bevelSegments : α
  curveSegments : α

/-- A buffer attribute of item size 3, indexed per vertex. -/
abbrev BufferAttribute (α : Type) := List (Vec3 α)

/-- The parts of a `THREE.BufferGeometry` the factory reads or writes: the
`position` and `normal` attributes and the `needsUpdate` flag of
`position`. -/
structure BufferGeometry (α : Type) where
  position : BufferAttribute α
  normal : BufferAttribute α
  positionNeedsUpdate : Bool

/-- The object passed to `new THREE.MeshStandardMaterial` (lines 81-86);
a colour is a 24-bit RGB number such as `0xffd1dc`. -/
structure MeshStandardMaterial (α : Type) where
  color : Nat
  roughness : α
  metalness : α
  flatShading : Bool

/-- A `THREE.Mesh`: geometry, material and transform. -/
structure Mesh (α : Type) where
  geometry : BufferGeometry α
  material : MeshStandardMaterial α
  position : Vec3 α
  rotation : Vec3 α
  scale : Vec3 α

/-- The two library entry points whose results `makeLuckyStar` consumes. -/
structure Three (α : Type) where
  ExtrudeGeometry : Shape α → ExtrudeSettings α → BufferGeometry α
  computeVertexNormals : BufferGeometry α → BufferGeometry α

/-- The value of `new THREE.Mesh(geo, mat)`: the transform of a fresh
`Object3D` is position 0, rotation 0, scale 1. -/
def Mesh.new {α : Type} [Field α] (geo : BufferGeometry α)
    (mat : MeshStandardMaterial α) : Mesh α where
  geometry := geo
  material := mat
  position := ⟨0, 0, 0⟩
  rotation := ⟨0, 0, 0⟩
  scale := ⟨1, 1, 1⟩

/-! ## Options and their defaults (lines 48-56) -/

/-- The argument object of `makeLuckyStar`; `none` is an absent
(undefined) property. -/
structure StarOptions (α : Type) where
  outer : Option α := none
  inner : Option α := none
  depth : Option α := none
  bevelSize : Option α := none
  bevelThickness : Option α := none
  bevelSegments : Option α := none
  color : Option Nat := none

/-- The seven local bindings of `makeLuckyStar` after destructuring. -/
structure StarParams (α : Type) where
  outer : α
  inner : α
  depth : α
  bevelSize : α
  bevelThickness : α
  bevelSegments : α
  color : Nat

/-- The destructuring pattern of lines 48-56: an absent argument is
replaced by the empty object, then every absent property takes its default. -/
def destructure {α : Type} [Field α] (arg : Option (StarOptions α)) : StarParams α :=
  let o : StarOptions α := arg.getD {}
  { outer := o.outer.getD 5
    inner := o.inner.getD 2.6
    depth := o.depth.getD 1.2
    bevelSize := o.bevelSize.getD 0.8
    bevelThickness := o.bevelThickness.getD 0.9
    bevelSegments := o.bevelSegments.getD 6
    color := o.color.getD 0xffd1dc }

/-! ## Step 1: the outline (lines 58-68) -/

/-- The constant of line 60. -/
def spikes : Nat := 5

/-- Line 62: the radius used at step i. -/
def radiusAt {α : Type} (outer inner : α) (i : Nat) : α :=
  if i % 2 = 0 then outer else inner

/-- Line 63: the angle used at step i. -/
def angleAt {α : Type} [Field α] (M : JSMath α) (i : Nat) : α :=
  ((i : α) / ((spikes * 2 : Nat) : α)) * M.PI * 2 - M.PI / 2

/-- Lines 64-65: the point computed at step i. -/
def outlinePoint {α : Type} [Field α] (M : JSMath α) (outer inner : α) (i : Nat) : α × α :=
  let r := radiusAt outer inner i
  let a := angleAt M i
  (M.cos a * r, M.sin a * r)

/-- One iteration of the loop of lines 61-67. -/
def outlineStep {α : Type} [Field α] (M : JSMath α) (outer inner : α)
    (shape : Shape α) (i : Nat) : Shape α :=
  let p := outlinePoint M outer inner i
  if i = 0 then shape ++ [PathCmd.moveTo p.1 p.2] else shape ++ [PathCmd.lineTo p.1 p.2]

/-- Lines 59-68: the shape after the loop and `closePath`. -/
def buildShape {α : Type} [Field α] (M : JSMath α) (outer inner : α) : Shape α :=
  (List.range (spikes * 2)).foldl (outlineStep M outer inner) [] ++ [PathCmd.closePath]

/-! ## Step 2 and 3: extrusion settings and material (lines 70-86) -/

/-- Lines 71-78: the extrusion options. -/
def extrudeSettings {α : Type} [Field α] (p : StarParams α) : ExtrudeSettings α where
  depth := p.depth
  bevelEnabled := true
  bevelSize := p.bevelSize
  bevelThickness := p.bevelThickness
  bevelSegments := p.bevelSegments
  curveSegments := 24

/-- Lines 81-86: the material. -/
def starMaterial {α : Type} [Field α] (p : StarParams α) : MeshStandardMaterial α where
  color := p.color
  roughness := 0.9
  metalness := 0.0
  flatShading := true

/-! ## Step 4: the puff pass (lines 90-107) -/

/-- Number of items of an attribute (`count`). -/
def BufferAttribute.count {α : Type} (b : BufferAttribute α) : Nat := b.length

/-- Item i of an attribute. An index past the end does not occur in the
loop when both attributes have the same count; the model reads 0 there. -/
def BufferAttribute.item {α : Type} [Field α] (b : BufferAttribute α) (i : Nat) : Vec3 α :=
  b.getD i ⟨0, 0, 0⟩

/-- Accessor `getX`. -/
def BufferAttribute.getX {α : Type} [Field α] (b : BufferAttribute α) (i : Nat) : α :=
  (BufferAttribute.item b i).x

/-- Accessor `getY`. -/
def BufferAttribute.getY {α : Type} [Field α] (b : BufferAttribute α) (i : Nat) : α :=
  (BufferAttribute.item b i).y

/-- Accessor `getZ`. -/
def BufferAttribute.getZ {α : Type} [Field α] (b : BufferAttribute α) (i : Nat) : α :=
  (BufferAttribute.item b i).z

/-- Mutator `setXYZ`: overwrite item i. -/
def BufferAttribute.setXYZ {α : Type} (b : BufferAttribute α) (i : Nat) (x y z : α) :
    BufferAttribute α :=
  b.set i ⟨x, y, z⟩

/-- Line 97: planar distance from the extrusion axis. -/
def radial {α : Type} [Field α] (M : JSMath α) (x y : α) : α :=
  M.sqrt (x * x + y * y)

/-- Line 98: the falloff as a function of the radial distance. -/
def push {α : Type} [Field α] (M : JSMath α) (r : α) : α :=
  0.12 * M.exp (-r * 0.12)

/-- The body of the loop of lines 94-105 at index i. -/
def puffBody {α : Type} [Field α] (M : JSMath α) (norm : BufferAttribute α)
    (pos : BufferAttribute α) (i : Nat) : BufferAttribute α :=
  let x := BufferAttribute.getX pos i
  let y := BufferAttribute.getY pos i
  let z := BufferAttribute.getZ pos i
  let p := push M (radial M x y)
  BufferAttribute.setXYZ pos i
    (x + BufferAttribute.getX norm i * p)
    (y + BufferAttribute.getY norm i * p)
    (z + BufferAttribute.getZ norm i * p)

/-- The loop of lines 94-105, entered with counter i: the condition
`i < pos.count` is read again before every iteration. -/
def puffFrom {α : Type} [Field α] (M : JSMath α) (norm : BufferAttribute α)
    (pos : BufferAttribute α) (i : Nat) : BufferAttribute α :=
  if i < BufferAttribute.count pos then puffFrom M norm (puffBody M norm pos i) (i + 1) else pos
termination_by BufferAttribute.count pos - i
decreasing_by
  simp only [puffBody, BufferAttribute.setXYZ, BufferAttribute.count, List.length_set] at *
  omega

/-- The loop of lines 94-105 from `i = 0`. -/
def puffLoop {α : Type} [Field α] (M : JSMath α) (norm pos : BufferAttribute α) :
    BufferAttribute α :=
  puffFrom M norm pos 0

/-- The loop body run over the indices in a given order. -/
def puffInOrder {α : Type} [Field α] (M : JSMath α) (norm : BufferAttribute α)
    (order : List Nat) (pos : BufferAttribute α) : BufferAttribute α :=
  order.foldl (puffBody M norm) pos

/-- The per-vertex map of the specification: `p + n * 0.12 * exp(-0.12 *
sqrt(p.x^2 + p.y^2))`, written from the specification's words. -/
def puffMap {α : Type} [Field α] (M : JSMath α) (p n : Vec3 α) : Vec3 α :=
  let w := 0.12 * M.exp (-0.12 * M.sqrt (p.x ^ 2 + p.y ^ 2))
  ⟨p.x + n.x * w, p.y + n.y * w, p.z + n.z * w⟩

/-- The pointwise transform of the specification applied to whole buffers. -/
def puffPointwise {α : Type} [Field α] (M : JSMath α) (pos norm : BufferAttribute α) :
    BufferAttribute α :=
  List.zipWith (puffMap M) pos norm

/-- Lines 91-107: normals, puff loop, dirty flag, normals again. -/
def puff {α : Type} [Field α] (M : JSMath α) (lib : Three α) (geo : BufferGeometry α) :
    BufferGeometry α :=
  let g1 := lib.computeVertexNormals geo
  let g2 : BufferGeometry α :=
    { g1 with position := puffLoop M g1.normal g1.position, positionNeedsUpdate := true }
  lib.computeVertexNormals g2

/-! ## The factory (lines 48-112) -/

/-- The function `makeLuckyStar`; `none` is a call without argument. -/
def makeLuckyStar {α : Type} [Field α] (M : JSMath α) (lib : Three α)
    (arg : Option (StarOptions α)) : Mesh α :=
  let p := destructure arg
  let shape := buildShape M p.outer p.inner
  let geo := lib.ExtrudeGeometry shape (extrudeSettings p)
  let mat := starMaterial p
  let star := Mesh.new geo mat
  let star := { star with geometry := puff M lib star.geometry }
  { star with scale := ⟨1.3, 1.3, 1.3⟩ }

/-! ## The scene objects the frame callback mutates (lines 114-116, 150-174) -/

/-- The transforms `animate` writes: the rotations of the cube, the
icosahedron and the sphere, and the star mesh. -/
structure SceneState (α : Type) where
  cubeRotation : Vec3 α
  icoRotation : Vec3 α
  smileRotation : Vec3 α
  lucky : Mesh α

/-- Lines 114-115: the star as created and placed at start-up. -/
def luckyInit {α : Type} [Field α] (M : JSMath α) (lib : Three α) : Mesh α :=
  let lucky := makeLuckyStar M lib (some { color := some 0xffd1dc })
  { lucky with position := ⟨0, 20, 0⟩ }

/-- The scene state when `animate` is first called (lines 30-31 for the
cube; the other rotations are those of a fresh object). -/
def sceneInit {α : Type} [Field α] (M : JSMath α) (lib : Three α) : SceneState α where
  cubeRotation := ⟨2, 0.5, 0⟩
  icoRotation := ⟨0, 0, 0⟩
  smileRotation := ⟨0, 0, 0⟩
  lucky := luckyInit M lib

/-- Mutator `scale.setScalar(s)`. -/
def setScalar {α : Type} (s : α) : Vec3 α := ⟨s, s, s⟩

/-- One call of `animate` (lines 150-174) when `Date.now()` returns `now`. -/
def animate {α : Type} [Field α] (M : JSMath α) (now : α) (s : SceneState α) : SceneState α :=
  { cubeRotation := { s.cubeRotation with x := s.cubeRotation.x + 0.01, y := s.cubeRotation.y + 0.01 }
    icoRotation := { s.icoRotation with z := s.icoRotation.z + -0.03, y := s.icoRotation.y + -0.03 }
    smileRotation := { s.smileRotation with y := s.smileRotation.y + 0.05 }
    lucky :=
      { s.lucky with
        rotation := { s.lucky.rotation with y := s.lucky.rotation.y + 0.015 }
        scale := setScalar (1 + 0.04 * M.sin (now * 0.006)) } }

/-- The frames run in sequence, one clock reading per frame. -/
def runFrames {α : Type} [Field α] (M : JSMath α) (clock : List α) (s : SceneState α) :
    SceneState α :=
  clock.foldl (fun st now => animate M now st) s

/-! ## Geometry of the outline, for the statements about the polygon -/

/-- Euclidean distance of a planar point from the origin. -/
noncomputable def dist0 (p : ℝ × ℝ) : ℝ := Real.sqrt (p.1 ^ 2 + p.2 ^ 2)

/-- Euclidean length of a vector. -/
noncomputable def Vec3.norm (v : Vec3 ℝ) : ℝ := Real.sqrt (v.x ^ 2 + v.y ^ 2 + v.z ^ 2)

/-- Componentwise difference of two vectors. -/
def Vec3.sub {α : Type} [Field α] (a b : Vec3 α) : Vec3 α :=
  ⟨a.x - b.x, a.y - b.y, a.z - b.z⟩

/-- Euclidean distance between two planar points. -/
noncomputable def dist2 (p q : ℝ × ℝ) : ℝ := Real.sqrt ((q.1 - p.1) ^ 2 + (q.2 - p.2) ^ 2)

/-- Vertex k of the closed outline, indices taken modulo the 10 vertices. -/
def vertex {α : Type} [Field α] (M : JSMath α) (outer inner : α) (k : Nat) : α × α :=
  outlinePoint M outer inner (k % (spikes * 2))

/-- The point at parameter s of the segment from p to q. -/
def segPoint {α : Type} [Field α] (p q : α × α) (s : α) : α × α :=
  ((1 - s) * p.1 + s * q.1, (1 - s) * p.2 + s * q.2)

/-- The point at parameter s of edge k of the closed outline, which runs
from vertex k to vertex k + 1 (edge 9 is the closing edge back to vertex 0). -/
def edgePoint {α : Type} [Field α] (M : JSMath α) (outer inner : α) (k : Nat) (s : α) : α × α :=
  segPoint (vertex M outer inner k) (vertex M outer inner (k + 1)) s

/-! ## Helper lemmas -/

theorem buildShape_eq {α : Type} [Field α] (M : JSMath α) (outer inner : α) :
    buildShape M outer inner =
      PathCmd.moveTo (outlinePoint M outer inner 0).1 (outlinePoint M outer inner 0).2 ::
        ((List.range 9).map fun k =>
          PathCmd.lineTo (outlinePoint M outer inner (k + 1)).1
            (outlinePoint M outer inner (k + 1)).2) ++ [PathCmd.closePath] := by
  simp [buildShape, spikes, List.range_succ, outlineStep]

theorem vertices_buildShape {α : Type} [Field α] (M : JSMath α) (outer inner : α) :
    (buildShape M outer inner).vertices = (List.range 10).map (outlinePoint M outer inner) := by
  simp [buildShape_eq, Shape.vertices, List.range_succ, PathCmd.point?, List.filterMap_cons]

theorem dist0_outlinePoint (outer inner : ℝ) (ho : 0 ≤ outer) (hi : 0 ≤ inner) (i : Nat) :
    dist0 (outlinePoint realMath outer inner i) = radiusAt outer inner i := by
  have hr : 0 ≤ radiusAt outer inner i := by
    unfold radiusAt; split <;> assumption
  simp only [dist0, outlinePoint, realMath]
  have : (Real.cos (angleAt realMath i) * radiusAt outer inner i) ^ 2 +
      (Real.sin (angleAt realMath i) * radiusAt outer inner i) ^ 2 = radiusAt outer inner i ^ 2 := by
    have h := Real.cos_sq_add_sin_sq (angleAt realMath i)
    nlinarith [h]
  simp only [realMath] at this
  rw [this, Real.sqrt_sq hr]

/-! ### The puff loop -/

theorem length_puffBody {α : Type} [Field α] (M : JSMath α) (norm pos : BufferAttribute α)
    (i : Nat) : (puffBody M norm pos i).length = pos.length := by
  simp [puffBody, BufferAttribute.setXYZ]

theorem puffBody_eq_set {α : Type} [Field α] (M : JSMath α) (norm pos : BufferAttribute α)
    (i : Nat) :
    puffBody M norm pos i =
      pos.set i (puffMap M (BufferAttribute.item pos i) (BufferAttribute.item norm i)) := by
  simp only [puffBody, BufferAttribute.setXYZ, puffMap, push, radial, BufferAttribute.getX,
    BufferAttribute.getY, BufferAttribute.getZ]
  congr 3 <;> ring_nf

theorem item_eq_of_getElem? {α : Type} [Field α] (b : BufferAttribute α) (i : Nat) (v : Vec3 α)
    (h : b[i]? = some v) : BufferAttribute.item b i = v := by
  simp [BufferAttribute.item, List.getD_eq_getElem?_getD, h]

theorem getElem?_puffInOrder {α : Type} [Field α] (M : JSMath α) (norm : BufferAttribute α)
    (order : List Nat) (hnd : order.Nodup) (pos : BufferAttribute α) (j : Nat) :
    (puffInOrder M norm order pos)[j]? =
      if j ∈ order then (pos[j]?).map (fun p => puffMap M p (BufferAttribute.item norm j))
      else pos[j]? := by
  induction order generalizing pos with
  | nil => simp [puffInOrder]
  | cons i t ih =>
    have hit : i ∉ t := (List.nodup_cons.mp hnd).1
    have hnt : t.Nodup := (List.nodup_cons.mp hnd).2
    have hstep : puffInOrder M norm (i :: t) pos = puffInOrder M norm t (puffBody M norm pos i) := by
      simp [puffInOrder]
    rw [hstep, ih hnt, puffBody_eq_set]
    by_cases hjt : j ∈ t
    · have hji : i ≠ j := fun h => hit (h ▸ hjt)
      simp [hjt, List.getElem?_set_ne hji]
    · by_cases hji : j = i
      · subst hji
        simp only [hjt, if_false, List.mem_cons, true_or, if_true]
        cases hp : pos[j]? with
        | none =>
          have hge : pos.length ≤ j := List.getElem?_eq_none_iff.mp hp
          simp [List.getElem?_set, hge]
        | some v =>
          have hlt : j < pos.length := by
            rcases List.getElem?_eq_some_iff.mp hp with ⟨h, _⟩
            exact h
          simp [List.getElem?_set, hlt, item_eq_of_getElem? pos j v hp]
      · have hij : i ≠ j := fun h => hji h.symm
        simp [hjt, hji, List.getElem?_set_ne hij]

theorem puffInOrder_eq_pointwise {α : Type} [Field α] (M : JSMath α)
    (pos norm : BufferAttribute α) (hlen : pos.length = norm.length)
    (order : List Nat) (hperm : order.Perm (List.range pos.length)) :
    puffInOrder M norm order pos = puffPointwise M pos norm := by
  have hnd : order.Nodup := (List.Perm.nodup_iff hperm).mpr (List.nodup_range _)
  apply List.ext_getElem?
  intro j
  rw [getElem?_puffInOrder M norm order hnd pos j]
  have hmem : j ∈ order ↔ j < pos.length := by
    rw [List.Perm.mem_iff hperm, List.mem_range]
  by_cases hj : j < pos.length
  · have hjn : j < norm.length := hlen ▸ hj
    have hn : BufferAttribute.item norm j = norm[j] :=
      item_eq_of_getElem? norm j _ (List.getElem?_eq_getElem hjn)
    simp [hmem, hj, hjn, puffPointwise, List.getElem?_zipWith, hn, List.getElem?_eq_getElem]
  · have hjn : ¬ j < norm.length := hlen ▸ hj
    have h1 : pos[j]? = none := List.getElem?_eq_none (Nat.le_of_not_lt hj)
    simp [hmem, hj, puffPointwise, List.getElem?_zipWith, h1]

theorem puffFrom_eq_foldl {α : Type} [Field α] (M : JSMath α) (norm : BufferAttribute α)
    (k : Nat) : ∀ (pos : BufferAttribute α) (i : Nat), pos.length - i = k →
      puffFrom M norm pos i = (List.range' i k).foldl (puffBody M norm) pos := by
  induction k with
  | zero =>
    intro pos i h
    rw [puffFrom]
    have : ¬ i < BufferAttribute.count pos := by
      simp only [BufferAttribute.count]; omega
    simp [this]
  | succ k ih =>
    intro pos i h
    rw [puffFrom]
    have hlt : i < BufferAttribute.count pos := by
      simp only [BufferAttribute.count]; omega
    have hk : (puffBody M norm pos i).length - (i + 1) = k := by
      rw [length_puffBody]; omega
    simp [hlt, ih _ _ hk, List.range'_succ]

theorem puffLoop_eq_puffInOrder {α : Type} [Field α] (M : JSMath α)
    (norm pos : BufferAttribute α) :
    puffLoop M norm pos = puffInOrder M norm (List.range pos.length) pos := by
  rw [puffLoop, puffFrom_eq_foldl M norm pos.length pos 0 (by simp), puffInOrder,
    List.range_eq_range']

theorem puffLoop_eq_pointwise {α : Type} [Field α] (M : JSMath α)
    (pos norm : BufferAttribute α) (hlen : pos.length = norm.length) :
    puffLoop M norm pos = puffPointwise M pos norm := by
  rw [puffLoop_eq_puffInOrder]
  exact puffInOrder_eq_pointwise M pos norm hlen _ (List.Perm.refl _)

/-! ### The outline in exact arithmetic -/

theorem angleAt_real (i : Nat) :
    angleAt realMath i = (i : ℝ) * (Real.pi / 5) - Real.pi / 2 := by
  simp only [angleAt, realMath, spikes]
  push_cast
  ring

theorem outlinePoint_zero (outer inner : ℝ) :
    outlinePoint realMath outer inner 0 = (0, -outer) := by
  have ha : angleAt realMath 0 = -(Real.pi / 2) := by
    rw [angleAt_real]; simp
  simp only [outlinePoint, ha, radiusAt]
  simp [realMath]

theorem push_real (r : ℝ) : push realMath r = 0.12 * Real.exp (-r * 0.12) := rfl

theorem radial_real (x y : ℝ) : radial realMath x y = Real.sqrt (x * x + y * y) := rfl

theorem norm_smul_nonneg (n : Vec3 ℝ) (w : ℝ) (hw : 0 ≤ w) :
    Vec3.norm ⟨n.x * w, n.y * w, n.z * w⟩ = w * Vec3.norm n := by
  simp only [Vec3.norm]
  have h : (n.x * w) ^ 2 + (n.y * w) ^ 2 + (n.z * w) ^ 2 =
      w ^ 2 * (n.x ^ 2 + n.y ^ 2 + n.z ^ 2) := by ring
  rw [h, Real.sqrt_mul (sq_nonneg w), Real.sqrt_sq hw]

/-! ### Directions of consecutive vertices -/

theorem angleAt_succ (k : Nat) :
    angleAt realMath (k + 1) = angleAt realMath k + Real.pi / 5 := by
  rw [angleAt_real, angleAt_real]
  push_cast
  ring

theorem cos_sin_angleAt_next (k : Nat) (hk : k < 10) :
    Real.cos (angleAt realMath ((k + 1) % 10)) = Real.cos (angleAt realMath k + Real.pi / 5) ∧
      Real.sin (angleAt realMath ((k + 1) % 10)) =
        Real.sin (angleAt realMath k + Real.pi / 5) := by
  by_cases h9 : k = 9
  · subst h9
    have h : angleAt realMath 9 + Real.pi / 5 = angleAt realMath 0 + 2 * Real.pi := by
      rw [angleAt_real, angleAt_real]
      push_cast
      ring
    have h0 : (9 + 1) % 10 = 0 := by norm_num
    rw [h0, h, Real.cos_add_two_pi, Real.sin_add_two_pi]
    exact ⟨rfl, rfl⟩
  · have hlt : (k + 1) % 10 = k + 1 := Nat.mod_eq_of_lt (by omega)
    rw [hlt, angleAt_succ]
    exact ⟨rfl, rfl⟩

theorem radiusAt_pos (outer inner : ℝ) (ho : 0 < outer) (hi : 0 < inner) (i : Nat) :
    0 < radiusAt outer inner i := by
  unfold radiusAt
  split <;> assumption

theorem vertex_eq (outer inner : ℝ) (k : Nat) (hk : k < 10) :
    vertex realMath outer inner k =
      (Real.cos (angleAt realMath k) * radiusAt outer inner k,
        Real.sin (angleAt realMath k) * radiusAt outer inner k) := by
  simp only [vertex, spikes, Nat.mod_eq_of_lt hk, outlinePoint]
  rfl

theorem vertex_succ_eq (outer inner : ℝ) (k : Nat) (hk : k < 10) :
    vertex realMath outer inner (k + 1) =
      (Real.cos (angleAt realMath k + Real.pi / 5) * radiusAt outer inner ((k + 1) % 10),
        Real.sin (angleAt realMath k + Real.pi / 5) * radiusAt outer inner ((k + 1) % 10)) := by
  have h := cos_sin_angleAt_next k hk
  simp only [vertex, spikes, outlinePoint]
  show (Real.cos (angleAt realMath ((k + 1) % 10)) * _, Real.sin _ * _) = _
  rw [h.1, h.2]

theorem getElem?_vertices (outer inner : ℝ) (k : Nat) (hk : k < 10) :
    (buildShape realMath outer inner).vertices[k]? = some (vertex realMath outer inner k) := by
  rw [vertices_buildShape]
  simp [List.getElem?_map, List.getElem?_range hk, vertex, spikes, Nat.mod_eq_of_lt hk]

theorem sin_pi_div_ten_pos : 0 < Real.sin (Real.pi / 10) :=
  Real.sin_pos_of_pos_of_lt_pi (by positivity) (by linarith [Real.pi_pos])

theorem chord_sq (a r : ℝ) :
    (Real.cos (a + Real.pi / 5) * r - Real.cos a * r) ^ 2 +
        (Real.sin (a + Real.pi / 5) * r - Real.sin a * r) ^ 2 =
      (2 * r * Real.sin (Real.pi / 10)) ^ 2 := by
  have h5 : Real.cos (Real.pi / 5) = 1 - 2 * Real.sin (Real.pi / 10) ^ 2 := by
    have h := Real.cos_two_mul (Real.pi / 10)
    have h2 := Real.sin_sq_add_cos_sq (Real.pi / 10)
    have e : 2 * (Real.pi / 10) = Real.pi / 5 := by ring
    rw [e] at h
    nlinarith
  have hc := Real.cos_sq_add_sin_sq a
  have hs := Real.cos_sq_add_sin_sq (Real.pi / 5)
  rw [Real.cos_add, Real.sin_add]
  linear_combination
    r ^ 2 * ((Real.cos (Real.pi / 5) - 1) ^ 2 + Real.sin (Real.pi / 5) ^ 2) * hc +
      r ^ 2 * hs - 2 * r ^ 2 * h5

/-! ### Edges of the closed outline meet only at shared vertices -/

theorem sin_mul_pos (n : Nat) (h1 : 1 ≤ n) (h4 : n ≤ 4) :
    0 < Real.sin ((n : ℝ) * (Real.pi / 5)) := by
  have hp := Real.pi_pos
  have hn1 : (1 : ℝ) ≤ n := by exact_mod_cast h1
  have hn4 : (n : ℝ) ≤ 4 := by exact_mod_cast h4
  apply Real.sin_pos_of_pos_of_lt_pi
  · nlinarith
  · nlinarith

theorem sin_mul_neg (n : Nat) (h6 : 6 ≤ n) (h9 : n ≤ 9) :
    Real.sin ((n : ℝ) * (Real.pi / 5)) < 0 := by
  have hp := Real.pi_pos
  have hn6 : (6 : ℝ) ≤ n := by exact_mod_cast h6
  have hn9 : (n : ℝ) ≤ 9 := by exact_mod_cast h9
  rw [← Real.sin_sub_two_pi]
  apply Real.sin_neg_of_neg_of_neg_pi_lt
  · nlinarith
  · nlinarith

theorem sin_step_pos : 0 < Real.sin (Real.pi / 5) := by
  have h := sin_mul_pos 1 (le_refl _) (by norm_num)
  simpa using h

theorem zero_of_sum_nonneg (x y z : ℝ) (hx : 0 ≤ x) (hy : 0 ≤ y) (hz : 0 ≤ z)
    (h : x + y + z = 0) : x = 0 ∧ y = 0 ∧ z = 0 :=
  ⟨by linarith, by linarith, by linarith⟩

theorem cross_identities (p q f a b c d : ℝ)
    (hx : a * Real.cos p + b * Real.cos (p + f) = c * Real.cos q + d * Real.cos (q + f))
    (hy : a * Real.sin p + b * Real.sin (p + f) = c * Real.sin q + d * Real.sin (q + f)) :
    a * Real.sin f = -(c * Real.sin (q - p - f)) - d * Real.sin (q - p) ∧
      b * Real.sin f = c * Real.sin (q - p) + d * Real.sin (q - p + f) := by
  have e1 : Real.sin f = Real.sin (p + f) * Real.cos p - Real.cos (p + f) * Real.sin p := by
    rw [← Real.sin_sub]; congr 1; ring
  have e2 : Real.sin (q - p) = Real.sin q * Real.cos p - Real.cos q * Real.sin p :=
    Real.sin_sub q p
  have e3 : Real.sin (q - p + f) =
      Real.sin (q + f) * Real.cos p - Real.cos (q + f) * Real.sin p := by
    rw [← Real.sin_sub]; congr 1; ring
  have f2 : Real.sin (q - p - f) =
      Real.sin q * Real.cos (p + f) - Real.cos q * Real.sin (p + f) := by
    rw [← Real.sin_sub]; congr 1; ring
  have f3 : Real.sin (q - p) =
      Real.sin (q + f) * Real.cos (p + f) - Real.cos (q + f) * Real.sin (p + f) := by
    rw [← Real.sin_sub]; congr 1; ring
  constructor
  · linear_combination a * e1 + c * f2 + d * f3 + Real.sin (p + f) * hx - Real.cos (p + f) * hy
  · linear_combination b * e1 - c * e2 - d * e3 + Real.cos p * hy - Real.sin p * hx

theorem cone_core (n : Nat) (hn1 : 1 ≤ n) (hn9 : n ≤ 9) (a b c d : ℝ)
    (ha : 0 ≤ a) (hb : 0 ≤ b) (hc : 0 ≤ c) (hd : 0 ≤ d)
    (hA : a * Real.sin (Real.pi / 5) =
      -(c * Real.sin (((n : ℝ) - 1) * (Real.pi / 5))) - d * Real.sin ((n : ℝ) * (Real.pi / 5)))
    (hB : b * Real.sin (Real.pi / 5) =
      c * Real.sin ((n : ℝ) * (Real.pi / 5)) + d * Real.sin (((n : ℝ) + 1) * (Real.pi / 5))) :
    (a = 0 ∧ d = 0 ∧ (n = 1 ∨ c = 0)) ∨ (b = 0 ∧ c = 0 ∧ (n = 9 ∨ d = 0)) := by
  have hS := sin_step_pos
  have hprev : ((n : ℝ) - 1) = ((n - 1 : Nat) : ℝ) := by
    rw [Nat.cast_sub hn1]; simp
  have hnext : ((n : ℝ) + 1) = ((n + 1 : Nat) : ℝ) := by push_cast; ring
  by_cases h4 : n ≤ 4
  · left
    have hQ := sin_mul_pos n hn1 h4
    have hP : 0 ≤ Real.sin (((n : ℝ) - 1) * (Real.pi / 5)) := by
      by_cases h1 : n = 1
      · subst h1; simp
      · rw [hprev]
        exact (sin_mul_pos (n - 1) (by omega) (by omega)).le
    obtain ⟨h1, h2, h3⟩ := zero_of_sum_nonneg _ _ _ (mul_nonneg ha hS.le) (mul_nonneg hc hP)
      (mul_nonneg hd hQ.le) (by linarith)
    refine ⟨(mul_eq_zero.mp h1).resolve_right hS.ne', (mul_eq_zero.mp h3).resolve_right hQ.ne', ?_⟩
    by_cases h1n : n = 1
    · exact Or.inl h1n
    · right
      have hP2 : 0 < Real.sin (((n : ℝ) - 1) * (Real.pi / 5)) := by
        rw [hprev]
        exact sin_mul_pos (n - 1) (by omega) (by omega)
      exact (mul_eq_zero.mp h2).resolve_right hP2.ne'
  · by_cases h5 : n = 5
    · left
      subst h5
      have hQ : Real.sin (((5 : Nat) : ℝ) * (Real.pi / 5)) = 0 := by
        have e : ((5 : Nat) : ℝ) * (Real.pi / 5) = Real.pi := by push_cast; ring
        rw [e, Real.sin_pi]
      have hP : 0 < Real.sin ((((5 : Nat) : ℝ) - 1) * (Real.pi / 5)) := by
        rw [hprev]
        exact sin_mul_pos 4 (by norm_num) (le_refl _)
      have hR : Real.sin ((((5 : Nat) : ℝ) + 1) * (Real.pi / 5)) < 0 := by
        rw [hnext]
        exact sin_mul_neg 6 (le_refl _) (by norm_num)
      rw [hQ] at hA hB
      have hcP := mul_nonneg hc hP.le
      have haS := mul_nonneg ha hS.le
      have hbS := mul_nonneg hb hS.le
      have hdR : d * Real.sin ((((5 : Nat) : ℝ) + 1) * (Real.pi / 5)) ≤ 0 :=
        mul_nonpos_of_nonneg_of_nonpos hd hR.le
      have ha0 : a * Real.sin (Real.pi / 5) = 0 := by linarith
      have hc0 : c * Real.sin ((((5 : Nat) : ℝ) - 1) * (Real.pi / 5)) = 0 := by linarith
      have hd0 : d * Real.sin ((((5 : Nat) : ℝ) + 1) * (Real.pi / 5)) = 0 := by linarith
      exact ⟨(mul_eq_zero.mp ha0).resolve_right hS.ne',
        (mul_eq_zero.mp hd0).resolve_right hR.ne,
        Or.inr ((mul_eq_zero.mp hc0).resolve_right hP.ne')⟩
    · right
      have h6 : 6 ≤ n := by omega
      have hQ := sin_mul_neg n h6 hn9
      have hR : Real.sin (((n : ℝ) + 1) * (Real.pi / 5)) ≤ 0 := by
        by_cases h9 : n = 9
        · subst h9
          have e : (((9 : Nat) : ℝ) + 1) * (Real.pi / 5) = 2 * Real.pi := by push_cast; ring
          rw [e, Real.sin_two_pi]
        · rw [hnext]
          exact (sin_mul_neg (n + 1) (by omega) (by omega)).le
      have hbS := mul_nonneg hb hS.le
      have hcQ : c * Real.sin ((n : ℝ) * (Real.pi / 5)) ≤ 0 :=
        mul_nonpos_of_nonneg_of_nonpos hc hQ.le
      have hdR : d * Real.sin (((n : ℝ) + 1) * (Real.pi / 5)) ≤ 0 :=
        mul_nonpos_of_nonneg_of_nonpos hd hR
      have hb0 : b * Real.sin (Real.pi / 5) = 0 := by linarith
      have hc0 : c * Real.sin ((n : ℝ) * (Real.pi / 5)) = 0 := by linarith
      have hd0 : d * Real.sin (((n : ℝ) + 1) * (Real.pi / 5)) = 0 := by linarith
      refine ⟨(mul_eq_zero.mp hb0).resolve_right hS.ne',
        (mul_eq_zero.mp hc0).resolve_right hQ.ne, ?_⟩
      by_cases h9 : n = 9
      · exact Or.inl h9
      · right
        have hR2 : Real.sin (((n : ℝ) + 1) * (Real.pi / 5)) < 0 := by
          rw [hnext]
          exact sin_mul_neg (n + 1) (by omega) (by omega)
        exact (mul_eq_zero.mp hd0).resolve_right hR2.ne

theorem angle_gap (i j : Nat) (hi : i < 10) (hj : j < 10) (hij : i ≠ j) :
    ∃ n : Nat, 1 ≤ n ∧ n ≤ 9 ∧ (n = 1 → j = (i + 1) % 10) ∧ (n = 9 → i = (j + 1) % 10) ∧
      ∀ x : ℝ, Real.sin (angleAt realMath j - angleAt realMath i + x) =
        Real.sin ((n : ℝ) * (Real.pi / 5) + x) := by
  by_cases hlt : i < j
  · refine ⟨j - i, by omega, by omega, fun h => by omega, fun h => by omega, fun x => ?_⟩
    rw [angleAt_real, angleAt_real, Nat.cast_sub hlt.le]
    congr 1; ring
  · have hji : j < i := by omega
    refine ⟨j + 10 - i, by omega, by omega, fun h => by omega, fun h => by omega, fun x => ?_⟩
    rw [angleAt_real, angleAt_real, Nat.cast_sub (by omega)]
    rw [← Real.sin_add_two_pi]
    congr 1; push_cast; ring

theorem edgePoint_eq (outer inner : ℝ) (k : Nat) (hk : k < 10) (s : ℝ) :
    edgePoint realMath outer inner k s =
      ((1 - s) * radiusAt outer inner k * Real.cos (angleAt realMath k) +
          s * radiusAt outer inner ((k + 1) % 10) * Real.cos (angleAt realMath k + Real.pi / 5),
        (1 - s) * radiusAt outer inner k * Real.sin (angleAt realMath k) +
          s * radiusAt outer inner ((k + 1) % 10) *
            Real.sin (angleAt realMath k + Real.pi / 5)) := by
  rw [edgePoint, vertex_eq outer inner k hk, vertex_succ_eq outer inner k hk]
  simp only [segPoint]
  congr 1 <;> ring

theorem edges_meet_only_at_vertices (outer inner : ℝ) (ho : 0 < outer) (hi : 0 < inner)
    (i j : Nat) (hi10 : i < 10) (hj10 : j < 10) (hij : i ≠ j) (s t : ℝ)
    (hs0 : 0 ≤ s) (hs1 : s ≤ 1) (ht0 : 0 ≤ t) (ht1 : t ≤ 1)
    (h : edgePoint realMath outer inner i s = edgePoint realMath outer inner j t) :
    (j = (i + 1) % 10 ∧ s = 1 ∧ t = 0) ∨ (i = (j + 1) % 10 ∧ s = 0 ∧ t = 1) := by
  rw [edgePoint_eq outer inner i hi10, edgePoint_eq outer inner j hj10] at h
  have hx := congrArg Prod.fst h
  have hy := congrArg Prod.snd h
  simp only at hx hy
  have hRi := radiusAt_pos outer inner ho hi i
  have hRi1 := radiusAt_pos outer inner ho hi ((i + 1) % 10)
  have hRj := radiusAt_pos outer inner ho hi j
  have hRj1 := radiusAt_pos outer inner ho hi ((j + 1) % 10)
  obtain ⟨hA, hB⟩ := cross_identities _ _ _ _ _ _ _ hx hy
  obtain ⟨n, hn1, hn9, hnext, hprev, hsin⟩ := angle_gap i j hi10 hj10 hij
  have hD0 : Real.sin (angleAt realMath j - angleAt realMath i) =
      Real.sin ((n : ℝ) * (Real.pi / 5)) := by
    have := hsin 0
    simpa using this
  have hDm : Real.sin (angleAt realMath j - angleAt realMath i - Real.pi / 5) =
      Real.sin (((n : ℝ) - 1) * (Real.pi / 5)) := by
    have := hsin (-(Real.pi / 5))
    rw [← sub_eq_add_neg] at this
    rw [this]; congr 1; ring
  have hDp : Real.sin (angleAt realMath j - angleAt realMath i + Real.pi / 5) =
      Real.sin (((n : ℝ) + 1) * (Real.pi / 5)) := by
    rw [hsin]; congr 1; ring
  rw [hD0, hDm] at hA
  rw [hD0, hDp] at hB
  have h1s : 0 ≤ 1 - s := by linarith
  have h1t : 0 ≤ 1 - t := by linarith
  rcases cone_core n hn1 hn9 _ _ _ _ (mul_nonneg h1s hRi.le) (mul_nonneg hs0 hRi1.le)
    (mul_nonneg h1t hRj.le) (mul_nonneg ht0 hRj1.le) hA hB with ⟨ha, hd, hn⟩ | ⟨hb, hc, hn⟩
  · have hs : s = 1 := by
      have := (mul_eq_zero.mp ha).resolve_right hRi.ne'
      linarith
    have ht : t = 0 := (mul_eq_zero.mp hd).resolve_right hRj1.ne'
    rcases hn with hn | hc
    · exact Or.inl ⟨hnext hn, hs, ht⟩
    · have := (mul_eq_zero.mp hc).resolve_right hRj.ne'
      exfalso; linarith
  · have hs : s = 0 := (mul_eq_zero.mp hb).resolve_right hRi1.ne'
    have ht : t = 1 := by
      have := (mul_eq_zero.mp hc).resolve_right hRj.ne'
      linarith
    rcases hn with hn | hd
    · exact Or.inr ⟨hprev hn, hs, ht⟩
    · have := (mul_eq_zero.mp hd).resolve_right hRj1.ne'
      exfalso; linarith

/-! ### Frames -/

theorem runFrames_append {α : Type} [Field α] (M : JSMath α) (clock : List α) (now : α)
    (s : SceneState α) :
    runFrames M (clock ++ [now]) s = animate M now (runFrames M clock s) := by
  simp [runFrames, List.foldl_append]

theorem runFrames_position {α : Type} [Field α] (M : JSMath α) (clock : List α) :
    ∀ s : SceneState α, (runFrames M clock s).lucky.position = s.lucky.position := by
  induction clock with
  | nil => intro s; rfl
  | cons t ts ih =>
    intro s
    have h : runFrames M (t :: ts) s = runFrames M ts (animate M t s) := rfl
    rw [h, ih]
    rfl

theorem runFrames_rotation (clock : List ℝ) :
    ∀ s : SceneState ℝ, (runFrames realMath clock s).lucky.rotation.y =
      s.lucky.rotation.y + 0.015 * (clock.length : ℝ) := by
  induction clock with
  | nil => intro s; simp [runFrames]
  | cons t ts ih =>
    intro s
    have h : runFrames realMath (t :: ts) s = runFrames realMath ts (animate realMath t s) := rfl
    rw [h, ih]
    simp only [animate, List.length_cons]
    push_cast
    ring

/-! ## The claims -/

/-- C1: for non-negative `outer` and `inner` the shape built by lines 59-68 is
one `moveTo` followed by nine `lineTo` and `closePath`, so the outline has
exactly 10 vertices, and vertex i lies at distance `outer` from the origin
when i is even and at distance `inner` when i is odd. -/
theorem outline_ten_vertices_alternating (outer inner : ℝ) (ho : 0 ≤ outer) (hi : 0 ≤ inner) :
    buildShape realMath outer inner =
        PathCmd.moveTo (outlinePoint realMath outer inner 0).1
            (outlinePoint realMath outer inner 0).2 ::
          ((List.range 9).map fun k =>
            PathCmd.lineTo (outlinePoint realMath outer inner (k + 1)).1
              (outlinePoint realMath outer inner (k + 1)).2) ++ [PathCmd.closePath] ∧
      (buildShape realMath outer inner).vertices.length = 10 ∧
      ∀ i, i < 10 → ∃ p, (buildShape realMath outer inner).vertices[i]? = some p ∧
        dist0 p = if i % 2 = 0 then outer else inner := by
  refine ⟨buildShape_eq _ _ _, by simp [vertices_buildShape], ?_⟩
  intro i hi10
  refine ⟨outlinePoint realMath outer inner i, ?_, ?_⟩
  · rw [vertices_buildShape]
    simp [List.getElem?_map, List.getElem?_range hi10]
  · rw [dist0_outlinePoint outer inner ho hi i, radiusAt]

theorem outline_ten_vertices_alternating_witness :
    (0 : ℝ) ≤ 5 ∧ (0 : ℝ) ≤ 2.6 ∧ (buildShape realMath 5 2.6).vertices.length = 10 ∧
      ∃ p, (buildShape realMath 5 2.6).vertices[3]? = some p ∧ dist0 p = 2.6 :=
  ⟨by norm_num, by norm_num,
    (outline_ten_vertices_alternating 5 2.6 (by norm_num) (by norm_num)).2.1,
    by
      have h := outline_ten_vertices_alternating 5 2.6 (by norm_num) (by norm_num)
      simpa using h.2.2 3 (by norm_num)⟩

/-- C2 (evaluation of the code): with the default radii the first outline
vertex is `(0, -5)`: it lies on the negative y axis of the shape plane, not
at `(0, +outer)`. -/
theorem first_vertex_points_down :
    (buildShape realMath (destructure none).outer (destructure none).inner).vertices.head? =
        some (0, -5) ∧
      (buildShape realMath (destructure none).outer (destructure none).inner).vertices.head? ≠
        some (0, 5) := by
  have h : (buildShape realMath (destructure none).outer
      (destructure none).inner).vertices.head? = some ((0 : ℝ), (-5 : ℝ)) := by
    rw [vertices_buildShape]
    simp [List.range_succ_eq_map, outlinePoint_zero, destructure]
  refine ⟨h, ?_⟩
  rw [h]
  intro hc
  have h2 : (-5 : ℝ) = 5 := congrArg Prod.snd (Option.some.inj hc)
  norm_num at h2

/-- C3: the puff pass moves vertex i, at `(x, y, z)` with normal `n`, by
the vector `n * w` with `w = 0.12 * exp(-0.12 * sqrt(x^2 + y^2))`; the length
of the displacement is `w * |n|`, and `0.12 * |n|` when `x = y = 0`. -/
theorem puff_displacement (pos norm : BufferAttribute ℝ) (hlen : pos.length = norm.length)
    (i : Nat) (hi : i < pos.length) :
    Vec3.sub (BufferAttribute.item (puffLoop realMath norm pos) i) (BufferAttribute.item pos i) =
        ⟨(BufferAttribute.item norm i).x * (0.12 * Real.exp (-0.12 *
            Real.sqrt ((BufferAttribute.item pos i).x ^ 2 + (BufferAttribute.item pos i).y ^ 2))),
          (BufferAttribute.item norm i).y * (0.12 * Real.exp (-0.12 *
            Real.sqrt ((BufferAttribute.item pos i).x ^ 2 + (BufferAttribute.item pos i).y ^ 2))),
          (BufferAttribute.item norm i).z * (0.12 * Real.exp (-0.12 *
            Real.sqrt ((BufferAttribute.item pos i).x ^ 2 +
              (BufferAttribute.item pos i).y ^ 2)))⟩ ∧
      Vec3.norm (Vec3.sub (BufferAttribute.item (puffLoop realMath norm pos) i)
          (BufferAttribute.item pos i)) =
        0.12 * Real.exp (-0.12 *
            Real.sqrt ((BufferAttribute.item pos i).x ^ 2 + (BufferAttribute.item pos i).y ^ 2)) *
          Vec3.norm (BufferAttribute.item norm i) ∧
      ((BufferAttribute.item pos i).x = 0 → (BufferAttribute.item pos i).y = 0 →
        Vec3.norm (Vec3.sub (BufferAttribute.item (puffLoop realMath norm pos) i)
          (BufferAttribute.item pos i)) = 0.12 * Vec3.norm (BufferAttribute.item norm i)) := by
  have hin : i < norm.length := hlen ▸ hi
  have hp : BufferAttribute.item pos i = pos[i] :=
    item_eq_of_getElem? pos i _ (List.getElem?_eq_getElem hi)
  have hn : BufferAttribute.item norm i = norm[i] :=
    item_eq_of_getElem? norm i _ (List.getElem?_eq_getElem hin)
  have hnew : BufferAttribute.item (puffLoop realMath norm pos) i =
      puffMap realMath pos[i] norm[i] := by
    apply item_eq_of_getElem?
    rw [puffLoop_eq_pointwise realMath pos norm hlen]
    simp [puffPointwise, List.getElem?_zipWith, List.getElem?_eq_getElem, hi, hin]
  have hd : Vec3.sub (BufferAttribute.item (puffLoop realMath norm pos) i)
      (BufferAttribute.item pos i) =
      ⟨norm[i].x * (0.12 * Real.exp (-0.12 * Real.sqrt (pos[i].x ^ 2 + pos[i].y ^ 2))),
        norm[i].y * (0.12 * Real.exp (-0.12 * Real.sqrt (pos[i].x ^ 2 + pos[i].y ^ 2))),
        norm[i].z * (0.12 * Real.exp (-0.12 * Real.sqrt (pos[i].x ^ 2 + pos[i].y ^ 2)))⟩ := by
    rw [hnew, hp]
    simp [Vec3.sub, puffMap, realMath]
  have hw : (0 : ℝ) ≤ 0.12 * Real.exp (-0.12 * Real.sqrt (pos[i].x ^ 2 + pos[i].y ^ 2)) :=
    mul_nonneg (by norm_num) (Real.exp_pos _).le
  rw [hd, hp, hn]
  refine ⟨rfl, norm_smul_nonneg _ _ hw, ?_⟩
  intro hx hy
  rw [norm_smul_nonneg _ _ hw, hx, hy]
  simp

theorem puff_displacement_witness :
    Vec3.norm (Vec3.sub
        (BufferAttribute.item (puffLoop realMath [⟨0, 0, 1⟩] [⟨0, 0, 2⟩]) 0)
        (BufferAttribute.item [(⟨0, 0, 2⟩ : Vec3 ℝ)] 0)) =
      0.12 * Vec3.norm (BufferAttribute.item [(⟨0, 0, 1⟩ : Vec3 ℝ)] 0) :=
  (puff_displacement [⟨0, 0, 2⟩] [⟨0, 0, 1⟩] rfl 0 (by simp)).2.2
    (by simp [BufferAttribute.item]) (by simp [BufferAttribute.item])

/-- C4: the falloff of line 98 is strictly decreasing in the radial distance,
and at every vertex it is positive and at most 0.12, with 0.12 attained
exactly at radial distance 0. -/
theorem push_strictly_decreasing (r1 r2 : ℝ) (h : r1 < r2) (x y : ℝ) :
    push realMath r2 < push realMath r1 ∧
      0 < push realMath (radial realMath x y) ∧
      push realMath (radial realMath x y) ≤ 0.12 ∧
      (push realMath (radial realMath x y) = 0.12 ↔ radial realMath x y = 0) ∧
      push realMath 0 = 0.12 := by
  have hr : 0 ≤ radial realMath x y := by
    rw [radial_real]; exact Real.sqrt_nonneg _
  have hle : Real.exp (-radial realMath x y * 0.12) ≤ 1 := by
    rw [Real.exp_le_one_iff]; nlinarith
  refine ⟨?_, ?_, ?_, ?_, ?_⟩
  · rw [push_real, push_real]
    have : Real.exp (-r2 * 0.12) < Real.exp (-r1 * 0.12) := by
      rw [Real.exp_lt_exp]; nlinarith
    nlinarith
  · rw [push_real]
    exact mul_pos (by norm_num) (Real.exp_pos _)
  · rw [push_real]; nlinarith
  · rw [push_real]
    constructor
    · intro he
      have h1 : Real.exp (-radial realMath x y * 0.12) = 1 := by nlinarith
      have h2 : -radial realMath x y * 0.12 = 0 := by
        rwa [Real.exp_eq_one_iff] at h1
      nlinarith
    · intro hz
      rw [hz]; simp
  · rw [push_real]; simp

theorem push_strictly_decreasing_witness :
    (0 : ℝ) < 1 ∧ push realMath 1 < push realMath 0 ∧
      push realMath (radial realMath 3 4) ≤ 0.12 :=
  ⟨by norm_num, (push_strictly_decreasing 0 1 (by norm_num) 3 4).1,
    (push_strictly_decreasing 0 1 (by norm_num) 3 4).2.2.1⟩

/-- C5: for position and normal buffers of equal length the in-place loop of
lines 94-105 leaves exactly the pointwise map `p + n * 0.12 * exp(-0.12 *
sqrt(p.x^2 + p.y^2))` of the original buffers, entry i depends only on the
original position and normal of vertex i, and running the loop body over the
indices in any permuted order gives the same buffer. -/
theorem puff_loop_order_independent {α : Type} [Field α] (M : JSMath α)
    (pos norm : BufferAttribute α) (hlen : pos.length = norm.length)
    (order : List Nat) (hperm : order.Perm (List.range pos.length)) :
    puffLoop M norm pos = puffPointwise M pos norm ∧
      puffInOrder M norm order pos = puffLoop M norm pos ∧
      (∀ i, i < pos.length → (puffLoop M norm pos)[i]? =
        some (puffMap M (BufferAttribute.item pos i) (BufferAttribute.item norm i))) := by
  refine ⟨puffLoop_eq_pointwise M pos norm hlen, ?_, ?_⟩
  · rw [puffLoop_eq_pointwise M pos norm hlen]
    exact puffInOrder_eq_pointwise M pos norm hlen order hperm
  · intro i hi
    have hin : i < norm.length := hlen ▸ hi
    have hp : BufferAttribute.item pos i = pos[i] :=
      item_eq_of_getElem? pos i _ (List.getElem?_eq_getElem hi)
    have hn : BufferAttribute.item norm i = norm[i] :=
      item_eq_of_getElem? norm i _ (List.getElem?_eq_getElem hin)
    rw [puffLoop_eq_pointwise M pos norm hlen, hp, hn]
    simp [puffPointwise, List.getElem?_zipWith, List.getElem?_eq_getElem, hi, hin]

theorem puff_loop_order_independent_witness :
    puffInOrder realMath [⟨0, 0, 1⟩, ⟨1, 0, 0⟩, ⟨0, 1, 0⟩] [2, 0, 1]
        [⟨3, 4, 0⟩, ⟨0, 0, 2⟩, ⟨1, 1, 1⟩] =
      puffLoop realMath [⟨0, 0, 1⟩, ⟨1, 0, 0⟩, ⟨0, 1, 0⟩] [⟨3, 4, 0⟩, ⟨0, 0, 2⟩, ⟨1, 1, 1⟩] :=
  (puff_loop_order_independent realMath [⟨3, 4, 0⟩, ⟨0, 0, 2⟩, ⟨1, 1, 1⟩]
    [⟨0, 0, 1⟩, ⟨1, 0, 0⟩, ⟨0, 1, 0⟩] rfl [2, 0, 1] (by decide)).2.1

/-- C6: after destructuring, every absent option has its default (outer 5,
inner 2.6, depth 1.2, bevelSize 0.8, bevelThickness 0.9, bevelSegments 6,
color 0xffd1dc) and every supplied option keeps its value, also for a call
without argument; the mesh is built from these values, and for the empty
object (or no argument) its material is colour 0xffd1dc, roughness 0.9,
metalness 0, flat shading on, and its scale is 1.3 on all three axes. -/
theorem defaults_fill_unspecified {α : Type} [Field α] (M : JSMath α) (lib : Three α)
    (o : StarOptions α) :
    (((o.outer = none → (destructure (some o)).outer = 5) ∧
        ∀ v, o.outer = some v → (destructure (some o)).outer = v) ∧
      ((o.inner = none → (destructure (some o)).inner = 2.6) ∧
        ∀ v, o.inner = some v → (destructure (some o)).inner = v) ∧
      ((o.depth = none → (destructure (some o)).depth = 1.2) ∧
        ∀ v, o.depth = some v → (destructure (some o)).depth = v) ∧
      ((o.bevelSize = none → (destructure (some o)).bevelSize = 0.8) ∧
        ∀ v, o.bevelSize = some v → (destructure (some o)).bevelSize = v) ∧
      ((o.bevelThickness = none → (destructure (some o)).bevelThickness = 0.9) ∧
        ∀ v, o.bevelThickness = some v → (destructure (some o)).bevelThickness = v) ∧
      ((o.bevelSegments = none → (destructure (some o)).bevelSegments = 6) ∧
        ∀ v, o.bevelSegments = some v → (destructure (some o)).bevelSegments = v) ∧
      ((o.color = none → (destructure (some o)).color = 0xffd1dc) ∧
        ∀ v, o.color = some v → (destructure (some o)).color = v)) ∧
      destructure (none : Option (StarOptions α)) = ⟨5, 2.6, 1.2, 0.8, 0.9, 6, 0xffd1dc⟩ ∧
      destructure (some ({} : StarOptions α)) = ⟨5, 2.6, 1.2, 0.8, 0.9, 6, 0xffd1dc⟩ ∧
      ((makeLuckyStar M lib (some o)).material.color = (destructure (some o)).color ∧
        (makeLuckyStar M lib (some o)).geometry =
          puff M lib (lib.ExtrudeGeometry
            (buildShape M (destructure (some o)).outer (destructure (some o)).inner)
            ⟨(destructure (some o)).depth, true, (destructure (some o)).bevelSize,
              (destructure (some o)).bevelThickness, (destructure (some o)).bevelSegments, 24⟩)) ∧
      ((makeLuckyStar M lib (some {})).material = ⟨0xffd1dc, 0.9, 0, true⟩ ∧
        (makeLuckyStar M lib (some {})).scale = ⟨1.3, 1.3, 1.3⟩) ∧
      makeLuckyStar M lib none = makeLuckyStar M lib (some {}) := by
  refine ⟨⟨⟨?_, ?_⟩, ⟨?_, ?_⟩, ⟨?_, ?_⟩, ⟨?_, ?_⟩, ⟨?_, ?_⟩, ⟨?_, ?_⟩, ⟨?_, ?_⟩⟩, rfl, rfl,
    ⟨rfl, rfl⟩, ⟨?_, rfl⟩, rfl⟩
  all_goals first
    | (intro h; simp [destructure, h])
    | (intro v h; simp [destructure, h])
    | (simp [makeLuckyStar, starMaterial, Mesh.new, destructure]; norm_num)

/-- C7: supplying a colour changes the material colour and nothing else: the
outline, the extrusion settings, the geometry (with the puffed positions),
roughness, metalness, flat shading, transform and the 1.3 scale are those of
the call with the default colour. -/
theorem color_only_affects_material {α : Type} [Field α] (M : JSMath α) (lib : Three α)
    (o : StarOptions α) (c : Nat) :
    buildShape M (destructure (some { o with color := some c })).outer
          (destructure (some { o with color := some c })).inner =
        buildShape M (destructure (some { o with color := none })).outer
          (destructure (some { o with color := none })).inner ∧
      extrudeSettings (destructure (some { o with color := some c })) =
        extrudeSettings (destructure (some { o with color := none })) ∧
      (makeLuckyStar M lib (some { o with color := some c })).geometry =
        (makeLuckyStar M lib (some { o with color := none })).geometry ∧
      (makeLuckyStar M lib (some { o with color := some c })).material.roughness =
        (makeLuckyStar M lib (some { o with color := none })).material.roughness ∧
      (makeLuckyStar M lib (some { o with color := some c })).material.metalness =
        (makeLuckyStar M lib (some { o with color := none })).material.metalness ∧
      (makeLuckyStar M lib (some { o with color := some c })).material.flatShading =
        (makeLuckyStar M lib (some { o with color := none })).material.flatShading ∧
      (makeLuckyStar M lib (some { o with color := some c })).scale = ⟨1.3, 1.3, 1.3⟩ ∧
      (makeLuckyStar M lib (some { o with color := none })).scale = ⟨1.3, 1.3, 1.3⟩ ∧
      (makeLuckyStar M lib (some { o with color := some c })).material.color = c ∧
      (makeLuckyStar M lib (some { o with color := none })).material.color = 0xffd1dc ∧
      makeLuckyStar M lib (some { o with color := some c }) =
        { makeLuckyStar M lib (some { o with color := none }) with
          material :=
            { (makeLuckyStar M lib (some { o with color := none })).material with color := c } } :=
  ⟨rfl, rfl, rfl, rfl, rfl, rfl, rfl, rfl, rfl, rfl, rfl⟩

/-- C10: after any positive number of completed calls of `animate`, whatever
the clock readings, the star's scale is `1 + 0.04 * sin(0.006 * t)` on all
three axes (t the last reading), which lies in [0.96, 1.04] and so is not the
1.3 set by `makeLuckyStar`; the position stays (0, 20, 0) and rotation.y has
grown by 0.015 in each frame. -/
theorem animate_overwrites_scale (lib : Three ℝ) (clock : List ℝ) (now : ℝ) :
    (runFrames realMath (clock ++ [now]) (sceneInit realMath lib)).lucky.scale =
        ⟨1 + 0.04 * Real.sin (0.006 * now), 1 + 0.04 * Real.sin (0.006 * now),
          1 + 0.04 * Real.sin (0.006 * now)⟩ ∧
      (0.96 ≤ 1 + 0.04 * Real.sin (0.006 * now) ∧ 1 + 0.04 * Real.sin (0.006 * now) ≤ 1.04) ∧
      (sceneInit realMath lib).lucky.scale = ⟨1.3, 1.3, 1.3⟩ ∧
      (runFrames realMath (clock ++ [now]) (sceneInit realMath lib)).lucky.scale.x ≠ 1.3 ∧
      (runFrames realMath (clock ++ [now]) (sceneInit realMath lib)).lucky.position =
        ⟨0, 20, 0⟩ ∧
      (runFrames realMath (clock ++ [now]) (sceneInit realMath lib)).lucky.rotation.y =
        (runFrames realMath clock (sceneInit realMath lib)).lucky.rotation.y + 0.015 ∧
      (runFrames realMath (clock ++ [now]) (sceneInit realMath lib)).lucky.rotation.y =
        0.015 * ((clock.length : ℝ) + 1) := by
  have hs := Real.sin_le_one (0.006 * now)
  have hs2 := Real.neg_one_le_sin (0.006 * now)
  have hscale : (runFrames realMath (clock ++ [now]) (sceneInit realMath lib)).lucky.scale =
      ⟨1 + 0.04 * Real.sin (0.006 * now), 1 + 0.04 * Real.sin (0.006 * now),
        1 + 0.04 * Real.sin (0.006 * now)⟩ := by
    rw [runFrames_append]
    simp [animate, setScalar, realMath, mul_comm]
  refine ⟨hscale, ⟨by linarith, by linarith⟩, rfl, ?_, ?_, ?_, ?_⟩
  · rw [hscale]
    intro h
    have h2 : (1 : ℝ) + 0.04 * Real.sin (0.006 * now) = 1.3 := h
    norm_num at h2
    linarith
  · rw [runFrames_position]
    rfl
  · rw [runFrames_append]
    rfl
  · rw [runFrames_rotation]
    have h0 : (sceneInit realMath lib).lucky.rotation.y = 0 := rfl
    rw [h0]
    push_cast [List.length_append]
    simp

/-- C9: for `outer = inner = r > 0` the outline has 10 vertices, all at
distance r from the origin, and all 10 sides of the closed polygon, the
closing side from vertex 9 to vertex 0 included, have length
`2 * r * sin(pi/10)`: a regular decagon. -/
theorem equal_radii_regular_decagon (r : ℝ) (hr : 0 < r) :
    (buildShape realMath r r).vertices.length = 10 ∧
      (∀ k, k < 10 →
        (buildShape realMath r r).vertices[k]? = some (vertex realMath r r k)) ∧
      (∀ k, k < 10 → dist0 (vertex realMath r r k) = r) ∧
      (∀ k, k < 10 → dist2 (vertex realMath r r k) (vertex realMath r r (k + 1)) =
        2 * r * Real.sin (Real.pi / 10)) := by
  refine ⟨by simp [vertices_buildShape], fun k hk => getElem?_vertices r r k hk, ?_, ?_⟩
  · intro k hk
    have h := dist0_outlinePoint r r hr.le hr.le k
    simp only [vertex, spikes, Nat.mod_eq_of_lt hk]
    rw [h]
    simp [radiusAt]
  · intro k hk
    have hrad : ∀ i, radiusAt r r i = r := fun i => by simp [radiusAt]
    rw [vertex_eq r r k hk, vertex_succ_eq r r k hk, hrad, hrad]
    simp only [dist2]
    rw [chord_sq]
    exact Real.sqrt_sq (by have := sin_pi_div_ten_pos; positivity)

theorem equal_radii_regular_decagon_witness :
    (0 : ℝ) < 3 ∧ dist2 (vertex realMath 3 3 9) (vertex realMath 3 3 (9 + 1)) =
      2 * 3 * Real.sin (Real.pi / 10) :=
  ⟨by norm_num, (equal_radii_regular_decagon 3 (by norm_num)).2.2.2 9 (by norm_num)⟩

/-- C8: for positive `outer` and `inner` the closed outline is a simple
polygon. Vertex i is at polar angle `-pi/2 + i * pi/5`, the angles increase
strictly in steps of `pi/5` and span less than a full turn; two different
edges of the closed 10-vertex polygon (edge 9 is the closing edge) share a
point only when they are adjacent, and then only their common vertex. -/
theorem outline_non_self_intersecting (outer inner : ℝ) (ho : 0 < outer) (hi : 0 < inner) :
    (∀ i, i < 10 →
      (buildShape realMath outer inner).vertices[i]? = some (vertex realMath outer inner i) ∧
      vertex realMath outer inner i =
        (Real.cos (angleAt realMath i) * radiusAt outer inner i,
          Real.sin (angleAt realMath i) * radiusAt outer inner i) ∧
      0 < radiusAt outer inner i ∧
      angleAt realMath i = -(Real.pi / 2) + (i : ℝ) * (Real.pi / 5)) ∧
      (∀ i, i < 9 → angleAt realMath (i + 1) - angleAt realMath i = Real.pi / 5 ∧
        angleAt realMath i < angleAt realMath (i + 1)) ∧
      angleAt realMath 9 - angleAt realMath 0 < 2 * Real.pi ∧
      (∀ i j, i < 10 → j < 10 → i ≠ j → ∀ s t : ℝ, 0 ≤ s → s ≤ 1 → 0 ≤ t → t ≤ 1 →
        edgePoint realMath outer inner i s = edgePoint realMath outer inner j t →
          (j = (i + 1) % 10 ∧ s = 1 ∧ t = 0) ∨ (i = (j + 1) % 10 ∧ s = 0 ∧ t = 1)) := by
  have hp := Real.pi_pos
  refine ⟨?_, ?_, ?_, ?_⟩
  · intro i hi10
    refine ⟨getElem?_vertices outer inner i hi10, vertex_eq outer inner i hi10,
      radiusAt_pos outer inner ho hi i, ?_⟩
    rw [angleAt_real]; ring
  · intro i _
    rw [angleAt_succ]
    constructor
    · ring
    · linarith
  · rw [angleAt_real, angleAt_real]
    push_cast
    linarith
  · intro i j hi10 hj10 hij s t hs0 hs1 ht0 ht1 h
    exact edges_meet_only_at_vertices outer inner ho hi i j hi10 hj10 hij s t hs0 hs1 ht0 ht1 h

theorem outline_non_self_intersecting_witness :
    (0 : ℝ) < 5 ∧ (0 : ℝ) < 2.6 ∧
      edgePoint realMath 5 2.6 0 (1 / 2) ≠ edgePoint realMath 5 2.6 2 (1 / 2) :=
  ⟨by norm_num, by norm_num, fun h => by
    have h2 := (outline_non_self_intersecting 5 2.6 (by norm_num) (by norm_num)).2.2.2 0 2
      (by norm_num) (by norm_num) (by norm_num) (1 / 2) (1 / 2) (by norm_num) (by norm_num)
      (by norm_num) (by norm_num) h
    rcases h2 with ⟨h3, _, _⟩ | ⟨h3, _, _⟩ <;> norm_num at h3⟩

end LuckyStar
